import Mathlib

/-!
Verification of the video-to-3D-model conversion pipeline (TCC repository).

This file gives a shallow embedding, in Lean 4, of the parts of the
repository that the specification talks about:

* `src/converter/services/alicevision_processor.py` — the AliceVision
  pipeline orchestrator (`AliceVisionProcessor`): pair generation from the
  scene manifest, per-stage precondition and postcondition checks, the
  sequential stage runner `process_images`, and the per-invocation
  environment construction of `_run_command`;
* `src/converter/services/export_img.py` — `VideoFrameExtractor`: the
  frame sampling loop with the blur filter `_is_frame_blurry`;
* `src/converter/tasks.py` and
  `src/converter/services/video_service.py` — the job-status lifecycle
  (`process_video`, `update_video_status`);
* `setup_env.py` — `setup_environment`'s library-search-path merge.

Conventions of the embedding: the filesystem is passed explicitly as data
(records of the path facts a function inspects, or lists of written paths);
Python exceptions become `Except`/`Option` error values; external binaries
are opaque, so a stage function is parameterised by the binary's exit
status and by the outputs the binary happens to produce; `print` logging
that matters to a claim (the pair-generation warning) is returned as an
explicit list.  Sharpness scores are floats in the source; they are
modelled over `ℚ`, keeping the source's comparison against the literal
threshold `40` exactly.
-/

set_option autoImplicit false

namespace Tcc

/-! ### Pair generation — `AliceVisionProcessor._run_image_matching`

The source (alicevision_processor.py lines 296-321) reads
`sfm_data.get("views", [])`, then for each `i` in `range(len(views) - 1)`
takes `views[i].get("viewId")` and `views[i+1].get("viewId")`; if both are
present it tries `int(...)` on both inside one `try`, and on `ValueError`
prints a warning and replaces BOTH ids with the positional indices `i` and
`i+1`; if either id is absent the pair is skipped silently.  The pairs are
written as `"\n".join(pairs)` followed by one extra `"\n"`. -/

/-- One record of the manifest's `views` list; only the `viewId` field is
read by the pair generator.  An absent field (`views[i].get("viewId")`
returning `None`) is `none`. -/
structure View where
  viewId : Option String
deriving DecidableEq

/-- The decimal value of a non-empty all-digit character sequence, `none`
otherwise. -/
def digitsToNat? (cs : List Char) : Option Nat :=
  if cs = [] then none
  else cs.foldl
    (fun acc c =>
      acc.bind (fun n => if c.isDigit then some (10 * n + (c.toNat - '0'.toNat)) else none))
    (some 0)

/-- Surrounding whitespace removal, as Python's `str.strip()` does before
`int()` parses a string. -/
def pyStrip (cs : List Char) : List Char :=
  ((cs.dropWhile Char.isWhitespace).reverse.dropWhile Char.isWhitespace).reverse

/-- Python's `int()` applied to a string: surrounding whitespace is ignored
and an optional single `+` or `-` sign precedes decimal digits; anything
else raises `ValueError` (here: `none`).  (Python additionally accepts
underscore digit grouping, which no input of this system uses and which is
not modelled.) -/
def pyInt? (s : String) : Option Int :=
  match pyStrip s.data with
  | '-' :: rest => (digitsToNat? rest).map (fun n => -(n : Int))
  | '+' :: rest => (digitsToNat? rest).map (fun n => (n : Int))
  | cs => (digitsToNat? cs).map (fun n => (n : Int))

/-- The serialized form of one pair, `f"{view_id1} {view_id2}"`. -/
def pairLine (a b : Int) : String := toString a ++ " " ++ toString b

/-- The pair-generation loop of `_run_image_matching`, recursing over the
adjacent-view windows; `i` is the loop index.  Returns the generated pair
lines together with the indices at which the `Aviso: ViewIds ... não são
números inteiros` warning was printed. -/
def genPairs (i : Nat) : List View → List String × List Nat
  | [] => ([], [])
  | [_] => ([], [])
  | v1 :: v2 :: rest =>
    let tail := genPairs (i + 1) (v2 :: rest)
    match v1.viewId, v2.viewId with
    | some s1, some s2 =>
      match pyInt? s1, pyInt? s2 with
      | some n1, some n2 => (pairLine n1 n2 :: tail.1, tail.2)
      | _, _ => (pairLine (Int.ofNat i) (Int.ofNat (i + 1)) :: tail.1, i :: tail.2)
    | _, _ => tail

/-- `_run_image_matching`'s pair generation over the manifest's view list
(the loop starts at index 0). -/
def run_image_matching (views : List View) : List String × List Nat :=
  genPairs 0 views

/-- Python's `":".join` / `"\n".join` on a list of strings, with the given
separator fixed where it is used below. -/
def joinSep (sep : String) : List String → String
  | [] => ""
  | [a] => a
  | a :: rest => a ++ sep ++ joinSep sep rest

/-- The bytes written to `image_pairs.txt`:
`f.write("\n".join(pairs)); f.write("\n")`. -/
def image_pairs_file_content (pairs : List String) : String :=
  joinSep "\n" pairs ++ "\n"

/-- Each line followed by a newline, concatenated: the normal form of a
newline-delimited, newline-terminated record list. -/
def concatLines (ls : List String) : String :=
  ls.foldr (fun a r => a ++ "\n" ++ r) ""

theorem joinSep_newline_eq (pairs : List String) (h : pairs ≠ []) :
    joinSep "\n" pairs ++ "\n" = concatLines pairs := by
  induction pairs with
  | nil => exact absurd rfl h
  | cons a rest ih =>
    cases rest with
    | nil => simp [joinSep, concatLines]
    | cons b rest' =>
      have hb := ih (by simp)
      simp only [joinSep, concatLines, List.foldr_cons] at hb ⊢
      rw [String.append_assoc, hb]

theorem genPairs_all_parsed (views : List View) :
    ∀ (ns : List Int) (i : Nat),
      views.map (fun v => v.viewId.bind pyInt?) = ns.map some →
      (genPairs i views).1 = List.zipWith pairLine ns ns.tail ∧
        (genPairs i views).2 = [] := by
  induction views with
  | nil =>
    intro ns i h
    cases ns with
    | nil => simp [genPairs]
    | cons n ns' => simp at h
  | cons v rest ih =>
    intro ns i h
    cases ns with
    | nil => simp at h
    | cons n ns' =>
      simp only [List.map_cons, List.cons.injEq] at h
      obtain ⟨hv, hrest⟩ := h
      obtain ⟨s, hs, hps⟩ := Option.bind_eq_some.mp hv
      cases rest with
      | nil =>
        cases ns' with
        | nil => simp [genPairs]
        | cons => simp at hrest
      | cons v2 rest' =>
        cases ns' with
        | nil => simp at hrest
        | cons n2 ns'' =>
          have hv2 : v2.viewId.bind pyInt? = some n2 := by
            simp only [List.map_cons, List.cons.injEq] at hrest
            exact hrest.1
          obtain ⟨s2, hs2, hps2⟩ := Option.bind_eq_some.mp hv2
          have htail := ih (n2 :: ns'') (i + 1) hrest
          simp only [genPairs, hs, hs2, hps, hps2, List.zipWith, List.tail]
          exact ⟨by rw [htail.1]; simp, htail.2⟩

/-- Claim C4: for a manifest whose view ids all parse as integers, the pair
generator emits exactly the consecutive-adjacency pairs in order (hence
`N - 1` of them, and none at all for fewer than two views), and the pair
file is serialized newline-delimited with a trailing newline.  Pair
generation is a total function: it cannot fail. -/
theorem claim_c4 (views : List View) (ns : List Int)
    (hparse : views.map (fun v => v.viewId.bind pyInt?) = ns.map some) :
    (run_image_matching views).1 = List.zipWith pairLine ns ns.tail ∧
    (run_image_matching views).1.length = views.length - 1 ∧
    (views.length ≤ 1 → (run_image_matching views).1 = []) ∧
    (∃ s, image_pairs_file_content (run_image_matching views).1 = s ++ "\n") ∧
    (2 ≤ views.length →
      image_pairs_file_content (run_image_matching views).1 =
        concatLines (run_image_matching views).1) := by
  have hlen : ns.length = views.length := by
    have := congrArg List.length hparse
    simpa using this.symm
  obtain ⟨hpairs, -⟩ := genPairs_all_parsed views ns 0 hparse
  have hplen : (run_image_matching views).1.length = views.length - 1 := by
    rw [run_image_matching, hpairs, List.length_zipWith, List.length_tail, hlen]
    omega
  refine ⟨hpairs, hplen, ?_, ⟨joinSep "\n" (run_image_matching views).1, rfl⟩, ?_⟩
  · intro hle
    have : (run_image_matching views).1.length = 0 := by omega
    exact List.eq_nil_of_length_eq_zero this
  · intro h2
    have hne : (run_image_matching views).1 ≠ [] := by
      intro hnil
      rw [hnil] at hplen
      simp at hplen
      omega
    exact joinSep_newline_eq _ hne

/-- Claim C4 witness: ids `[5, 7, 12]` produce exactly the two pairs
`"5 7"` and `"7 12"`, and the pair file holds exactly `"5 7\n7 12\n"`. -/
theorem claim_c4_witness :
    ([⟨some "5"⟩, ⟨some "7"⟩, ⟨some "12"⟩] : List View).map
        (fun v => v.viewId.bind pyInt?) = ([5, 7, 12] : List Int).map some ∧
    (run_image_matching [⟨some "5"⟩, ⟨some "7"⟩, ⟨some "12"⟩]).1 =
      List.zipWith pairLine ([5, 7, 12] : List Int) [7, 12] ∧
    image_pairs_file_content
        (run_image_matching [⟨some "5"⟩, ⟨some "7"⟩, ⟨some "12"⟩]).1 =
      "5 7\n7 12\n" :=
  ⟨by decide,
   (claim_c4 [⟨some "5"⟩, ⟨some "7"⟩, ⟨some "12"⟩] [5, 7, 12] (by decide)).1,
   by decide⟩

/-- Claim C5 counterexample: for adjacent views with ids `["5", "b"]`, the
code emits the pair `"0 1"` — the parsed integer id `5` of the first view
is NOT kept (the claim's reading would demand `"5 1"`): the `except` branch
overwrites both ids with positional indices. -/
theorem claim_c5_counterexample :
    (run_image_matching [⟨some "5"⟩, ⟨some "b"⟩]).1 = ["0 1"] ∧
    (run_image_matching [⟨some "5"⟩, ⟨some "b"⟩]).1 ≠ ["5 1"] :=
  ⟨by decide, by decide⟩

/-- Claim C5 (amended): when, in an adjacent pair whose view ids are both
present, either id fails integer parsing, the generator substitutes the
positional indices for BOTH members of the pair, logs a warning, and does
not fail the stage. -/
theorem claim_c5_amended (i : Nat) (s1 s2 : String) (rest : List View)
    (h : pyInt? s1 = none ∨ pyInt? s2 = none) :
    (genPairs i ({ viewId := some s1 } :: { viewId := some s2 } :: rest)).1 =
      pairLine (Int.ofNat i) (Int.ofNat (i + 1)) ::
        (genPairs (i + 1) ({ viewId := some s2 } :: rest)).1 ∧
    (genPairs i ({ viewId := some s1 } :: { viewId := some s2 } :: rest)).2 =
      i :: (genPairs (i + 1) ({ viewId := some s2 } :: rest)).2 := by
  rcases h with h | h
  · simp [genPairs, h]
  · cases h1 : pyInt? s1 <;> simp [genPairs, h, h1]

/-- Claim C5 amended witness: views with ids `["a", "b"]` at positions
`[0, 1]` yield exactly the pair `"0 1"` and one warning. -/
theorem claim_c5_amended_witness :
    (pyInt? "a" = none ∨ pyInt? "b" = none) ∧
    (genPairs 0 [⟨some "a"⟩, ⟨some "b"⟩]).1 =
      pairLine (Int.ofNat 0) (Int.ofNat 1) :: (genPairs 1 [⟨some "b"⟩]).1 :=
  ⟨Or.inl (by decide), (claim_c5_amended 0 "a" "b" [] (Or.inl (by decide))).1⟩

/-- Claim C10: an adjacent pair one of whose views has no `viewId` at all
is skipped silently — no pair is emitted for it, no warning is printed and
nothing fails — so for `N` views the pair list can have fewer than `N - 1`
entries; concretely, three views whose middle view lacks an id produce an
empty pair list and no warnings. -/
theorem claim_c10 :
    (∀ (i : Nat) (v : View) (rest : List View),
        genPairs i ({ viewId := none } :: v :: rest) = genPairs (i + 1) (v :: rest)) ∧
    (∀ (i : Nat) (s : String) (rest : List View),
        genPairs i ({ viewId := some s } :: { viewId := none } :: rest) =
          genPairs (i + 1) ({ viewId := none } :: rest)) ∧
    run_image_matching [⟨some "1"⟩, ⟨none⟩, ⟨some "3"⟩] = ([], []) := by
  refine ⟨?_, ?_, by decide⟩
  · intro i v rest
    cases hv : v.viewId <;> simp [genPairs, hv]
  · intro i s rest
    rfl

/-! ### Frame sampling — `VideoFrameExtractor` (export_img.py lines 39-74)

`_process_video_frames` loops `success, frame = video.read()`, breaking at
the first unsuccessful read (end of stream, or a corrupt/undecodable
frame, for which OpenCV's `read` returns `False`); each decoded frame is
written to `output_dir` as `{name}_{frame_count}.jpeg` and then
`_is_frame_blurry` removes the file again when the sharpness score is at
most 40.  The video is modelled as the list of `read` results (`none` for
a failed read), the output directory as the list of frame indices whose
files currently exist, and the sharpness metric (variance of the Laplacian
of the grayscale frame, computed by OpenCV over floats) as an arbitrary
score function into `ℚ`; the threshold comparison `blur_score <= 40` is
kept exactly.  The metadata copy performed for sharp frames modifies the
kept file in place and is irrelevant to which files exist, so it is not
modelled. -/

/-- `_is_frame_blurry(image, image_path)`: returns whether the frame is
blurry together with whether it deleted the written file (`os.remove` runs
only in the score-below-threshold branch — an empty frame is reported
blurry but its file is NOT removed). -/
def is_frame_blurry {Img : Type} (score : Img → ℚ) : Option Img → Bool × Bool
  | none => (true, false)
  | some f => if score f ≤ 40 then (true, true) else (false, false)

/-- The frame loop of `_process_video_frames`: `i` is `frame_count`, `fs`
the files already present in the output directory.  Each successfully read
frame is first written (`cv2.imwrite`), then removed again when
`_is_frame_blurry` says so. -/
def processLoop {Img : Type} (score : Img → ℚ) : Nat → List (Option Img) → List Nat → List Nat
  | _, [], fs => fs
  | _, none :: _, fs => fs
  | i, some f :: rest, fs =>
    let fs1 := fs ++ [i]
    let fs2 := if (is_frame_blurry score (some f)).2 then fs1.filter (fun p => p != i) else fs1
    processLoop score (i + 1) rest fs2

/-- `_process_video_frames` starting from an empty (freshly created)
output directory: the files left in the output directory. -/
def process_video_frames {Img : Type} (score : Img → ℚ) (video : List (Option Img)) :
    List Nat :=
  processLoop score 0 video []

/-- The frames the single pass actually decodes: the prefix of successful
reads, ending at the first failed/corrupt read. -/
def decodedFrames {Img : Type} : List (Option Img) → List Img
  | [] => []
  | none :: _ => []
  | some f :: rest => f :: decodedFrames rest

/-- The indices (from `k`) of the decoded frames whose file survives the
blur filter. -/
def acceptedFrom {Img : Type} (score : Img → ℚ) : Nat → List Img → List Nat
  | _, [] => []
  | k, f :: rest =>
    if (is_frame_blurry score (some f)).2 then acceptedFrom score (k + 1) rest
    else k :: acceptedFrom score (k + 1) rest

theorem processLoop_eq {Img : Type} (score : Img → ℚ) (video : List (Option Img)) :
    ∀ (k : Nat) (fs : List Nat), (∀ j ∈ fs, j < k) →
      processLoop score k video fs = fs ++ acceptedFrom score k (decodedFrames video) := by
  induction video with
  | nil =>
    intro k fs _
    simp [processLoop, decodedFrames, acceptedFrom]
  | cons o rest ih =>
    intro k fs h
    cases o with
    | none => simp [processLoop, decodedFrames, acceptedFrom]
    | some f =>
      simp only [processLoop, decodedFrames, acceptedFrom]
      by_cases hb : (is_frame_blurry score (some f)).2 = true
      · rw [if_pos hb, if_pos hb]
        have hfilter : (fs ++ [k]).filter (fun p => p != k) = fs := by
          rw [List.filter_append]
          have h1 : fs.filter (fun p => p != k) = fs := by
            rw [List.filter_eq_self]
            intro a ha
            have := h a ha
            simp only [bne_iff_ne, ne_eq]
            omega
          have h2 : ([k] : List Nat).filter (fun p => p != k) = [] := by simp
          rw [h1, h2, List.append_nil]
        rw [hfilter]
        exact ih (k + 1) fs (fun j hj => Nat.lt_succ_of_lt (h j hj))
      · rw [if_neg hb, if_neg hb]
        have hstep : ∀ j ∈ fs ++ [k], j < k + 1 := by
          intro j hj
          rcases List.mem_append.mp hj with h1 | h1
          · exact Nat.lt_succ_of_lt (h j h1)
          · simp at h1
            omega
        rw [ih (k + 1) (fs ++ [k]) hstep, List.append_assoc, List.singleton_append]

theorem mem_acceptedFrom {Img : Type} (score : Img → ℚ) (frames : List Img) :
    ∀ (k i : Nat), i ∈ acceptedFrom score k frames ↔
      ∃ j f, frames.get? j = some f ∧ i = k + j ∧ 40 < score f := by
  induction frames with
  | nil => intro k i; simp [acceptedFrom]
  | cons f rest ih =>
    intro k i
    by_cases hb : score f ≤ 40
    · rw [show acceptedFrom score k (f :: rest) = acceptedFrom score (k + 1) rest by
        simp [acceptedFrom, is_frame_blurry, hb]]
      rw [ih (k + 1) i]
      constructor
      · rintro ⟨j, g, hj, hi, hs⟩
        exact ⟨j + 1, g, by simpa using hj, by omega, hs⟩
      · rintro ⟨j, g, hj, hi, hs⟩
        cases j with
        | zero =>
          simp only [List.get?_cons_zero, Option.some.injEq] at hj
          subst hj
          exact absurd hs (not_lt.mpr hb)
        | succ j' =>
          exact ⟨j', g, by simpa using hj, by omega, hs⟩
    · rw [show acceptedFrom score k (f :: rest) = k :: acceptedFrom score (k + 1) rest by
        simp [acceptedFrom, is_frame_blurry, hb]]
      simp only [List.mem_cons]
      rw [ih (k + 1) i]
      constructor
      · rintro (rfl | ⟨j, g, hj, hi, hs⟩)
        · exact ⟨0, f, by simp, by omega, not_le.mp hb⟩
        · exact ⟨j + 1, g, by simpa using hj, by omega, hs⟩
      · rintro ⟨j, g, hj, hi, hs⟩
        cases j with
        | zero =>
          simp only [List.get?_cons_zero, Option.some.injEq] at hj
          subst hj
          left
          omega
        | succ j' =>
          exact Or.inr ⟨j', g, by simpa using hj, by omega, hs⟩

/-- Claim C3: a decoded frame's image file persists in the output
directory exactly when its sharpness score is strictly greater than 40;
every frame scoring at or below the threshold is removed again after being
written, and a corrupt/undecodable frame (a failed read, which ends the
single pass) leaves no file.  Stated for every score function, so in
particular for the variance-of-Laplacian metric the source computes. -/
theorem claim_c3 {Img : Type} (score : Img → ℚ) (video : List (Option Img)) (i : Nat) :
    i ∈ process_video_frames score video ↔
      ∃ f, (decodedFrames video).get? i = some f ∧ 40 < score f := by
  rw [process_video_frames, processLoop_eq score video 0 [] (by simp), List.nil_append,
    mem_acceptedFrom]
  constructor
  · rintro ⟨j, f, hj, hi, hs⟩
    refine ⟨f, ?_, hs⟩
    have : j = i := by omega
    rwa [this] at hj
  · rintro ⟨f, hf, hs⟩
    exact ⟨i, f, hf, by omega, hs⟩

/-! ### Manifest location check after structure-from-motion
(`AliceVisionProcessor._run_structure_from_motion`, lines 403-446)

After `aliceVision_incrementalSfM` exits successfully, the source first
probes the two canonical manifest locations in order —
`cache_dir / "sfm.json"` (direct) and `cache_dir / "sfm" / "sfm.json"`
(nested) — binding `sfm_json_path` to the first that exists and raising
`FileNotFoundError` if neither does (lines 403-422).  Line 425 then
re-assigns `sfm_json_path = cache_dir / "sfm" / "sfm.json"`
unconditionally and raises `FileNotFoundError` if that nested path does
not exist; finally the nested manifest's
`sfm_data.get("structure", {}).get("views", [])` must be non-empty or a
`ValueError` is raised. -/

/-- The part of a `sfm.json` manifest this check reads:
`sfm_data.get("structure", {}).get("views", [])`. -/
structure SfmManifest where
  structure_views : List String
deriving DecidableEq

/-- Which canonical location a manifest was found at. -/
inductive ManifestLoc
  | direct
  | nested
deriving DecidableEq

/-- The exceptions `_run_structure_from_motion` can raise after the binary
has exited 0, by raise site. -/
inductive SfmCheckError
  | fileNotFoundAnywhere
  | nestedManifestMissing
  | emptyStructure
deriving DecidableEq

/-- The post-run filesystem: the manifest content at each canonical
location, `none` when the file does not exist. -/
structure SfmCacheState where
  directManifest : Option SfmManifest
  nestedManifest : Option SfmManifest
deriving DecidableEq

/-- The probe loop over `possible_sfm_paths` (lines 404-412): the first
existing location, in `[direct, nested]` order. -/
def firstExistingManifest (st : SfmCacheState) : Option ManifestLoc :=
  if st.directManifest.isSome then some ManifestLoc.direct
  else if st.nestedManifest.isSome then some ManifestLoc.nested
  else none

/-- The whole post-run verification of `_run_structure_from_motion`:
probe both locations; then (line 425) demand the nested location
regardless of what the probe found; then demand non-empty structure
views. -/
def run_structure_from_motion_check (st : SfmCacheState) : Except SfmCheckError Unit :=
  match firstExistingManifest st with
  | none => Except.error SfmCheckError.fileNotFoundAnywhere
  | some _ =>
    match st.nestedManifest with
    | none => Except.error SfmCheckError.nestedManifestMissing
    | some m =>
      if m.structure_views = [] then Except.error SfmCheckError.emptyStructure
      else Except.ok ()

/-- Claim C1 (code-bug evidence): with the manifest present only at the
direct location, the probe finds it and normalizes to the direct path —
and the stage nevertheless fails, because the immediately following
re-check demands the nested path unconditionally.  The claim (and the
spec) say the stage must succeed whenever either location has the
manifest. -/
theorem claim_c1_code_bug :
    firstExistingManifest ⟨some ⟨["view0"]⟩, none⟩ = some ManifestLoc.direct ∧
    run_structure_from_motion_check ⟨some ⟨["view0"]⟩, none⟩ =
      Except.error SfmCheckError.nestedManifestMissing :=
  ⟨rfl, rfl⟩

/-! ### Stage preconditions and postconditions

`_run_feature_matching` (lines 323-341) refuses to run its binary when
`cache/matches/image_pairs.txt` is missing or when `cache/features` is
missing or empty; `_run_prepare_dense_scene` (lines 486-500) builds and
runs its command unconditionally, although its `--input`
`cache/sfm/sfm.json` may be absent.  `_run_feature_extraction`
(lines 195-272) raises before spawning when no image is listed, and after
`aliceVision_cameraInit` exits 0 it raises when the produced `sfm.json` is
missing or whitespace-blank; `_run_meshing` (lines 526-537) performs no
check at all on its declared output `cache/mesh.obj`.  A stage function
returns the list of binaries it spawned together with the exception
raised, if any (`none` = stage reported success); it is parameterised by
the relevant filesystem facts and by each spawned binary's exit status. -/

/-- The filesystem facts the feature-matching and prepare-dense-scene
stages depend on. -/
structure CacheFS where
  image_pairs_txt : Bool
  features_dir_exists : Bool
  features_dir_nonempty : Bool
  sfm_nested_json : Bool
deriving DecidableEq

/-- The Python exception kinds raised by the stage bodies. -/
inductive PyError
  | valueError
  | runtimeError
  | fileNotFoundError
  | calledProcessError
deriving DecidableEq

/-- `_run_feature_matching`: check the pair file, check the features
directory, then spawn `aliceVision_featureMatching`. -/
def run_feature_matching (fs : CacheFS) (exitOk : Bool) : List String × Option PyError :=
  if !fs.image_pairs_txt then ([], some PyError.runtimeError)
  else if !fs.features_dir_exists || !fs.features_dir_nonempty then
    ([], some PyError.runtimeError)
  else
    (["aliceVision_featureMatching"],
      if exitOk then none else some PyError.calledProcessError)

/-- `_run_prepare_dense_scene`: no precondition check whatsoever — the
command is built and spawned regardless of the filesystem (the directory
listing printed first is only logging). -/
def run_prepare_dense_scene (_fs : CacheFS) (exitOk : Bool) : List String × Option PyError :=
  (["aliceVision_prepareDenseScene"],
    if exitOk then none else some PyError.calledProcessError)

/-- Claim C2 counterexample: with every required input absent (in
particular `cache/sfm/sfm.json`, the `--input` of prepare-dense-scene),
the stage still spawns its binary — and even reports success when the
binary exits 0 — where the claim demands failing without spawning. -/
theorem claim_c2_counterexample :
    run_prepare_dense_scene ⟨false, false, false, false⟩ true =
      (["aliceVision_prepareDenseScene"], none) ∧
    (run_prepare_dense_scene ⟨false, false, false, false⟩ true).1 ≠ [] :=
  ⟨rfl, by decide⟩

/-- Claim C2 (amended): the early stages do guard their inputs —
feature matching spawns its binary only when the pair file exists and the
features directory exists and is non-empty, and fails without any
subprocess otherwise — but this does not hold for every stage:
prepare-dense-scene spawns unconditionally. -/
theorem claim_c2_amended (fs : CacheFS) (exitOk : Bool) :
    ((fs.image_pairs_txt && fs.features_dir_exists && fs.features_dir_nonempty) = false →
      run_feature_matching fs exitOk = ([], some PyError.runtimeError)) ∧
    (run_feature_matching fs exitOk).1 =
      (if fs.image_pairs_txt && fs.features_dir_exists && fs.features_dir_nonempty then
        ["aliceVision_featureMatching"] else []) ∧
    (run_prepare_dense_scene fs exitOk).1 = ["aliceVision_prepareDenseScene"] := by
  obtain ⟨a, b, c, d⟩ := fs
  cases a <;> cases b <;> cases c <;>
    simp [run_feature_matching, run_prepare_dense_scene]

/-- Claim C2 amended witness: an existing pair file but an empty features
directory makes feature matching fail with no subprocess spawned. -/
theorem claim_c2_amended_witness :
    ((⟨true, true, false, true⟩ : CacheFS).image_pairs_txt &&
      (⟨true, true, false, true⟩ : CacheFS).features_dir_exists &&
      (⟨true, true, false, true⟩ : CacheFS).features_dir_nonempty) = false ∧
    run_feature_matching ⟨true, true, false, true⟩ true = ([], some PyError.runtimeError) :=
  ⟨by decide, (claim_c2_amended ⟨true, true, false, true⟩ true).1 (by decide)⟩

/-- `_run_feature_extraction`: refuse when the image list is empty; spawn
`aliceVision_cameraInit`; verify its produced `sfm.json` exists and is not
blank (`not f.read().strip()`); then spawn
`aliceVision_featureExtraction`.  `sfmProduced` is the content the binary
left at `cache/sfm.json` (`none` = no file). -/
def run_feature_extraction (imagesNonempty : Bool) (cameraInitExitOk : Bool)
    (sfmProduced : Option String) (featureExtractionExitOk : Bool) :
    List String × Option PyError :=
  if !imagesNonempty then ([], some PyError.valueError)
  else if !cameraInitExitOk then
    (["aliceVision_cameraInit"], some PyError.calledProcessError)
  else
    match sfmProduced with
    | none => (["aliceVision_cameraInit"], some PyError.runtimeError)
    | some c =>
      if pyStrip c.data = [] then (["aliceVision_cameraInit"], some PyError.runtimeError)
      else
        (["aliceVision_cameraInit", "aliceVision_featureExtraction"],
          if featureExtractionExitOk then none else some PyError.calledProcessError)

/-- `_run_meshing`: builds the command and spawns it; the outcome depends
only on the exit status — the declared output `cache/mesh.obj` (its size
given here, `none` = missing) is never inspected. -/
def run_meshing (exitOk : Bool) (_meshObjSize : Option Nat) : List String × Option PyError :=
  (["aliceVision_meshing"], if exitOk then none else some PyError.calledProcessError)

/-- Claim C6 counterexample: meshing whose binary exits 0 but whose
declared output `mesh.obj` is zero bytes — or missing entirely — is
reported as a success, where the claim demands a stage failure. -/
theorem claim_c6_counterexample :
    run_meshing true (some 0) = (["aliceVision_meshing"], none) ∧
    run_meshing true none = (["aliceVision_meshing"], none) :=
  ⟨rfl, rfl⟩

/-- Claim C6 (amended): the camera-init step of feature extraction fails
the stage when its produced `sfm.json` is missing or blank even though
the binary exited 0 (and proceeds only on real content); but not every
stage checks its outputs: meshing reports success on exit code 0 whatever
the state of its declared output file. -/
theorem claim_c6_amended (fe : Bool) (sz : Option Nat) :
    run_feature_extraction true true none fe =
      (["aliceVision_cameraInit"], some PyError.runtimeError) ∧
    run_feature_extraction true true (some "") fe =
      (["aliceVision_cameraInit"], some PyError.runtimeError) ∧
    run_feature_extraction true true (some " \n ") fe =
      (["aliceVision_cameraInit"], some PyError.runtimeError) ∧
    run_feature_extraction true true (some "views") true =
      (["aliceVision_cameraInit", "aliceVision_featureExtraction"], none) ∧
    (run_meshing true sz).2 = none :=
  ⟨rfl, rfl, rfl, rfl, rfl⟩

/-! ### Sequential stage execution — `AliceVisionProcessor.process_images`
(lines 112-137)

The body is ten stage calls in a fixed order inside one `try`; each call
either returns normally or raises, and a raise propagates at once (the
`except` block only logs and re-raises), so no later call runs.  The
runner is embedded over the list of the stages' outcomes: entry `k` is
`none` when the `k`-th stage call returns and `some e` when it raises
`e`.  The returned trace is the list of stage indices whose call was
entered. -/

/-- The ten stages of `process_images`, in source order. -/
def pipelineStageNames : List String :=
  ["_run_feature_extraction", "_run_image_matching", "_run_feature_matching",
   "_run_structure_from_motion", "_run_prepare_dense_scene",
   "_run_depth_map_estimation", "_run_depth_map_filter", "_run_meshing",
   "_run_mesh_filtering", "_run_texturing"]

/-- Sequential execution with exception propagation, from stage index
`i`: the invoked stage indices and the first raised error, if any. -/
def runStages {ε : Type} : Nat → List (Option ε) → List Nat × Option ε
  | _, [] => ([], none)
  | i, outcome :: rest =>
    match outcome with
    | some e => ([i], some e)
    | none =>
      let r := runStages (i + 1) rest
      (i :: r.1, r.2)

/-- `process_images` over the given per-stage outcomes, starting at the
first stage. -/
def process_images {ε : Type} (outcomes : List (Option ε)) : List Nat × Option ε :=
  runStages 0 outcomes

theorem runStages_fail {ε : Type} (outcomes : List (Option ε)) :
    ∀ (k i : Nat) (e : ε),
      outcomes.get? i = some (some e) →
      (∀ j, j < i → outcomes.get? j = some none) →
      runStages k outcomes = (List.range' k (i + 1), some e) := by
  induction outcomes with
  | nil => intro k i e h _; simp at h
  | cons o rest ih =>
    intro k i e h hj
    cases i with
    | zero =>
      simp only [List.get?_cons_zero, Option.some.injEq] at h
      subst h
      simp [runStages, List.range']
    | succ i' =>
      have ho : o = none := by
        have := hj 0 (Nat.succ_pos i')
        simpa using this
      subst ho
      simp only [runStages]
      rw [ih (k + 1) i' e (by simpa using h) (fun j hjlt => by
        have := hj (j + 1) (Nat.succ_lt_succ hjlt)
        simpa using this)]
      simp [List.range']

theorem runStages_trace {ε : Type} (outcomes : List (Option ε)) :
    ∀ k, (runStages k outcomes).1 = List.range' k (runStages k outcomes).1.length := by
  induction outcomes with
  | nil => intro k; simp [runStages]
  | cons o rest ih =>
    intro k
    cases o with
    | some e => simp [runStages, List.range']
    | none =>
      simp only [runStages, List.length_cons]
      rw [List.range', ← ih (k + 1)]

/-- Claim C7: the orchestrator enters the stages strictly in pipeline
order (its invocation trace is always an initial run `0, 1, 2, …` of
stage indices — there is no parallelism to model, execution being a
single sequential chain of calls), and when stage `i` is the first to
fail, the trace is exactly stages `0` through `i`: no later stage is ever
invoked and the stage's error propagates. -/
theorem claim_c7 {ε : Type} (outcomes : List (Option ε)) :
    (process_images outcomes).1 = List.range (process_images outcomes).1.length ∧
    ∀ (i : Nat) (e : ε),
      outcomes.get? i = some (some e) →
      (∀ j, j < i → outcomes.get? j = some none) →
      process_images outcomes = (List.range (i + 1), some e) := by
  constructor
  · rw [List.range_eq_range']
    exact runStages_trace outcomes 0
  · intro i e h hj
    rw [List.range_eq_range']
    exact runStages_fail outcomes 0 i e h hj

/-- Claim C7 witness: five stages of which the third (index 2) fails —
stages 4 and 5 (indices 3 and 4) are never invoked and the error is the
run's result. -/
theorem claim_c7_witness :
    ([none, none, some "exit 1", none, none] : List (Option String)).get? 2 =
      some (some "exit 1") ∧
    process_images ([none, none, some "exit 1", none, none] : List (Option String)) =
      (List.range 3, some "exit 1") :=
  ⟨by decide,
   (claim_c7 [none, none, some "exit 1", none, none]).2 2 "exit 1" (by decide) (by decide)⟩

/-! ### Library-search-path construction

Two places build `LD_LIBRARY_PATH`.  `setup_environment`
(setup_env.py lines 38-57) builds `lib_paths` — whose first and fourth
entries are both `str(alicevision_root / "lib")` — appends the current
`os.environ["LD_LIBRARY_PATH"]` when present, and writes the `":"`-join
back into `os.environ`, so a second call starts from a baseline already
containing every toolchain path.  `AliceVisionProcessor._run_command`
(alicevision_processor.py lines 150-162) starts from a fresh copy of
`os.environ` on every invocation, keeps the `lib_paths` entries that
exist on disk (`ex` below), and sets
`":".join(existing) + ":" + env.get("LD_LIBRARY_PATH", "")`. -/

/-- `setup_environment`'s `lib_paths` as functions of
`project_root` (entries 0 and 3 are the same directory). -/
def setup_env_lib_paths (root : String) : List String :=
  [root ++ "/src/Meshroom-2023.3.0/lib", "/usr/lib", "/usr/local/lib",
   root ++ "/src/Meshroom-2023.3.0/lib",
   root ++ "/src/Meshroom-2023.3.0/aliceVision/lib"]

/-- The `LD_LIBRARY_PATH` value `setup_environment` stores: its path list,
with the pre-existing value appended when one is set, joined on `":"`. -/
def setup_environment_ld (root : String) (baseline : Option String) : String :=
  joinSep ":"
    (setup_env_lib_paths root ++ (match baseline with | some b => [b] | none => []))

/-- `_run_command`'s `lib_paths` (the first entry is
`self.alicevision_lib_path`, the rest are literals in the source). -/
def run_command_lib_paths (aliceLib : String) : List String :=
  [aliceLib, "/usr/lib", "/usr/local/lib",
   "/home/pedro/dev/tcc/src/Meshroom-2023.3.0/lib",
   "/home/pedro/dev/tcc/src/Meshroom-2023.3.0/aliceVision/lib"]

/-- The `LD_LIBRARY_PATH` value `_run_command` passes to the subprocess:
the existing entries joined on `":"`, then `":"`, then the caller's
current value (`""` when unset). -/
def run_command_ld (ex : String → Bool) (aliceLib baseline : String) : String :=
  joinSep ":" ((run_command_lib_paths aliceLib).filter ex) ++ ":" ++ baseline

theorem joinSep_append_singleton (sep : String) (l : List String) (b : String)
    (h : l ≠ []) : joinSep sep (l ++ [b]) = joinSep sep l ++ sep ++ b := by
  induction l with
  | nil => exact absurd rfl h
  | cons a rest ih =>
    cases rest with
    | nil => simp [joinSep]
    | cons c rest' =>
      have hb := ih (by simp)
      have h1 : joinSep sep ((a :: c :: rest') ++ [b]) =
          a ++ sep ++ joinSep sep ((c :: rest') ++ [b]) := rfl
      have h2 : joinSep sep (a :: c :: rest') = a ++ sep ++ joinSep sep (c :: rest') := rfl
      rw [h1, hb, h2]
      simp [String.append_assoc]

set_option maxRecDepth 8192 in
/-- Claim C8 counterexample: `setup_environment`'s path list already
holds the toolchain `lib` directory twice, and calling the resolution
twice (the second call's baseline being the first call's stored result)
yields a search path in which `/usr/lib` — and every other toolchain
entry — appears twice, although the original caller-supplied baseline was
empty.  The claim asserts no duplicate segments beyond the baseline. -/
theorem claim_c8_counterexample :
    (setup_env_lib_paths "/app").count ("/app/src/Meshroom-2023.3.0/lib") = 2 ∧
    setup_environment_ld "/app" (some (setup_environment_ld "/app" none)) =
      joinSep ":" (setup_env_lib_paths "/app" ++ setup_env_lib_paths "/app") ∧
    (setup_env_lib_paths "/app" ++ setup_env_lib_paths "/app").count "/usr/lib" = 2 :=
  ⟨by decide, by decide, by decide⟩

/-- Claim C8 (amended): both resolutions always preserve the
caller-supplied library-search value, prepending their entries to it and
never discarding it; `_run_command` rebuilds its value from a fresh copy
of the process environment on each stage invocation, but
`setup_environment` is not duplicate-free: its own path list repeats the
toolchain lib directory, and a repeated call duplicates every toolchain
segment beyond the caller's baseline. -/
theorem claim_c8_amended :
    (∀ (root b : String), ∃ p, setup_environment_ld root (some b) = p ++ ":" ++ b) ∧
    (∀ (ex : String → Bool) (aliceLib baseline : String),
      ∃ q, run_command_ld ex aliceLib baseline = q ++ ":" ++ baseline) ∧
    (setup_env_lib_paths "/app" ++ setup_env_lib_paths "/app").count "/usr/lib" = 2 := by
  refine ⟨?_, ?_, by decide⟩
  · intro root b
    exact ⟨joinSep ":" (setup_env_lib_paths root),
      joinSep_append_singleton ":" _ b (by simp [setup_env_lib_paths])⟩
  · intro ex aliceLib baseline
    exact ⟨joinSep ":" ((run_command_lib_paths aliceLib).filter ex), rfl⟩

/-! ### Job status lifecycle — `tasks.process_video` and
`video_service.update_video_status`

`process_video` runs the extractor; on normal return it sets the job's
status to `"finalizado"`, and on any exception it sets it to `"error"`
and re-raises.  `update_video_status` updates the status of the first row
whose id matches (SQLAlchemy `filter_by(id=...).first()`) and does
nothing when none matches.  The database is modelled as a list of rows;
the extractor's outcome is the abstract `runOutcome` (`none` = returned
normally, `some e` = raised `e`). -/

/-- One `Converter` row: its id and persisted status. -/
structure JobRow where
  id : Nat
  status : String
deriving DecidableEq

/-- `update_video_status`: set the status of the first row with the given
id, if any. -/
def update_video_status : List JobRow → Nat → String → List JobRow
  | [], _, _ => []
  | r :: rs, vid, st =>
    if r.id = vid then { r with status := st } :: rs
    else r :: update_video_status rs vid st

/-- `tasks.process_video`: run, then persist `"finalizado"` on success or
`"error"` on any exception (which is re-raised — returned here). -/
def process_video (db : List JobRow) (vid : Nat) (runOutcome : Option String) :
    List JobRow × Option String :=
  match runOutcome with
  | none => (update_video_status db vid "finalizado", none)
  | some e => (update_video_status db vid "error", some e)

theorem mem_update_video_status (db : List JobRow) (vid : Nat) (st : String) (r : JobRow)
    (huniq : (db.filter (fun x => x.id == vid)).length ≤ 1)
    (hmem : r ∈ update_video_status db vid st) (hid : r.id = vid) :
    r.status = st := by
  induction db with
  | nil => simp [update_video_status] at hmem
  | cons a rest ih =>
    by_cases ha : a.id = vid
    · rw [show update_video_status (a :: rest) vid st =
          { a with status := st } :: rest by simp [update_video_status, ha]] at hmem
      rcases List.mem_cons.mp hmem with rfl | hr
      · rfl
      · exfalso
        have hfa : (a :: rest).filter (fun x => x.id == vid) =
            a :: rest.filter (fun x => x.id == vid) := by
          simp [List.filter_cons, ha]
        rw [hfa] at huniq
        simp only [List.length_cons] at huniq
        have hrest0 : rest.filter (fun x => x.id == vid) = [] :=
          List.eq_nil_of_length_eq_zero (by omega)
        have : r ∈ rest.filter (fun x => x.id == vid) :=
          List.mem_filter.mpr ⟨hr, by simp [hid]⟩
        rw [hrest0] at this
        simp at this
    · rw [show update_video_status (a :: rest) vid st =
          a :: update_video_status rest vid st by simp [update_video_status, ha]] at hmem
      rcases List.mem_cons.mp hmem with rfl | hr
      · exact absurd hid ha
      · refine ih ?_ hr
        have hfa : (a :: rest).filter (fun x => x.id == vid) =
            rest.filter (fun x => x.id == vid) := by
          simp [List.filter_cons, ha]
        rwa [hfa] at huniq

/-- Claim C9: after `process_video` finishes (normally or by exception),
a job row with the processed id — ids being unique in the table — holds
status `"finalizado"` when the run succeeded and `"error"` when it
failed; in particular it is never left as `"processing"`. -/
theorem claim_c9 (db : List JobRow) (vid : Nat) (outcome : Option String) (r : JobRow)
    (huniq : (db.filter (fun x => x.id == vid)).length ≤ 1)
    (hmem : r ∈ (process_video db vid outcome).1) (hid : r.id = vid) :
    r.status = (if outcome.isSome then "error" else "finalizado") ∧
    r.status ≠ "processing" := by
  cases outcome with
  | none =>
    have h := mem_update_video_status db vid "finalizado" r huniq hmem hid
    exact ⟨by simpa using h, by rw [h]; decide⟩
  | some e =>
    have h := mem_update_video_status db vid "error" r huniq hmem hid
    exact ⟨by simpa using h, by rw [h]; decide⟩

/-- Claim C9 witness: a one-row table in status `"processing"`; a
successful run leaves the row as `"finalizado"`, and a failed run leaves
it as `"error"` — never `"processing"`. -/
theorem claim_c9_witness :
    (([⟨1, "processing"⟩] : List JobRow).filter (fun x => x.id == 1)).length ≤ 1 ∧
    (⟨1, "finalizado"⟩ : JobRow) ∈ (process_video [⟨1, "processing"⟩] 1 none).1 ∧
    (⟨1, "finalizado"⟩ : JobRow).status = "finalizado" ∧
    (⟨1, "error"⟩ : JobRow).status ≠ "processing" :=
  ⟨by decide, by decide,
   (claim_c9 [⟨1, "processing"⟩] 1 none ⟨1, "finalizado"⟩ (by decide) (by decide) rfl).1,
   (claim_c9 [⟨1, "processing"⟩] 1 (some "boom") ⟨1, "error"⟩ (by decide) (by decide) rfl).2⟩

end Tcc
